import Mathlib

/-!
Verification of the siteselection grid-crawl engine.

Shallow embedding of the Python sources (src/scraper.py, src/utils.py)
over exact rationals (for coordinates parsed and compared by the code)
and reals (for the trigonometric haversine distance).  Strings are
modelled as Lean strings / lists of characters; the regular expressions
in utils.extract_coordinates_from_url are hand-compiled to equivalent
deterministic matchers (for these particular patterns the backtracking
engine is deterministic: a maximal digit run followed by a mandatory
literal admits no productive backtracking).
-/

namespace SiteSelection

/-! ## Grid traversal (src/scraper.py, run_scraper lines 133-171)

The scraper walks latitude in the outer while loop and longitude in the
inner one, each with condition like `lat <= END_LAT + 1e-12` and
increment by the configured step.  We model the float arithmetic with
exact rationals and the literal epsilon 1e-12. -/

/-- The epsilon tolerance literal 1e-12 from run_scraper. -/
def eps : ℚ := 1 / 10 ^ 12

/-- One axis of the while loop: starting at x, emit x and step by stp while
x does not exceed e.  The source loop terminates only for positive steps;
for non-positive steps the model returns the empty list (junk value). -/
def gridPoints (stp e : ℚ) (x : ℚ) : List ℚ :=
  if h : 0 < stp ∧ x ≤ e then x :: gridPoints stp e (x + stp) else []
termination_by (⌊(e - x) / stp⌋ + 1).toNat
decreasing_by
  have hs : 0 < stp := h.1
  have hxe : x ≤ e := h.2
  have h1 : (e - (x + stp)) / stp = (e - x) / stp - 1 := by
    rw [show e - (x + stp) = (e - x) - stp by ring, sub_div,
      div_self (ne_of_gt hs)]
  have h2 : ⌊(e - x) / stp - 1⌋ = ⌊(e - x) / stp⌋ - 1 := Int.floor_sub_one _
  have h3 : (0 : ℤ) ≤ ⌊(e - x) / stp⌋ :=
    Int.floor_nonneg.mpr (div_nonneg (by linarith) hs.le)
  rw [h1, h2]
  omega

/-- The nested grid loops of run_scraper: latitude outer, longitude inner,
each inclusive of the end bound plus the 1e-12 tolerance.  Produces the
sequence of visited cell centers (lat, lon) in visit order. -/
def run_scraper_cells (startLat endLat startLon endLon stepLat stepLon : ℚ) :
    List (ℚ × ℚ) :=
  (gridPoints stepLat (endLat + eps) startLat).flatMap fun lat =>
    (gridPoints stepLon (endLon + eps) startLon).map fun lon => (lat, lon)

/-! ## Coordinate resolver (src/utils.py, extract_coordinates_from_url)

The two regular expressions are:
  tier 1 (re.search): @(-?\d+\.\d+),(-?\d+\.\d+)
  tier 2 (re.findall): (-?\d+\.\d+)
Both are compiled to deterministic matchers below. -/

/-- Value of a list of decimal digit characters. -/
def digitsToNat (ds : List Char) : ℕ :=
  ds.foldl (fun n c => 10 * n + (c.toNat - '0'.toNat)) 0

/-- Parse an unsigned float token digits '.' digits (or bare digits) to ℚ. -/
def parseUFloat (t : List Char) : ℚ :=
  let p := t.span Char.isDigit
  match p.2 with
  | '.' :: frac => (digitsToNat p.1 : ℚ) + (digitsToNat frac : ℚ) / 10 ^ frac.length
  | _ => (digitsToNat p.1 : ℚ)

/-- Parse a float token with optional leading minus sign to ℚ
(model of Python float() on a matched token). -/
def parseFloat (t : List Char) : ℚ :=
  match t with
  | '-' :: r => -(parseUFloat r)
  | _ => parseUFloat t

/-- Match the pattern \d+\.\d+ at the head of s: maximal digit run,
a literal dot, maximal digit run.  Returns (token, rest). -/
def matchUFloatAt (s : List Char) : Option (List Char × List Char) :=
  if s.takeWhile Char.isDigit = [] then none
  else
    match s.dropWhile Char.isDigit with
    | '.' :: r2 =>
      if r2.takeWhile Char.isDigit = [] then none
      else some (s.takeWhile Char.isDigit ++ '.' :: r2.takeWhile Char.isDigit,
                 r2.dropWhile Char.isDigit)
    | _ => none

/-- Match the pattern -?\d+\.\d+ at the head of s (the optional sign is
productive only when followed by a digit, so trying it first is complete). -/
def matchFloatAt (s : List Char) : Option (List Char × List Char) :=
  match s with
  | [] => none
  | c :: r =>
    if c = '-' then (matchUFloatAt r).map fun tr => (c :: tr.1, tr.2)
    else matchUFloatAt (c :: r)

/-- Match @(-?\d+\.\d+),(-?\d+\.\d+) at the head of s, returning the two
parsed groups. -/
def matchCenterAt (s : List Char) : Option (ℚ × ℚ) :=
  match s with
  | '@' :: r =>
    match matchFloatAt r with
    | some tr1 =>
      match tr1.2 with
      | ',' :: r2 =>
        match matchFloatAt r2 with
        | some tr2 => some (parseFloat tr1.1, parseFloat tr2.1)
        | none => none
      | _ => none
    | none => none
  | _ => none

/-- re.search of the center-marker pattern: try each start position left
to right, return the first (leftmost) match. -/
def searchCenter : List Char → Option (ℚ × ℚ)
  | [] => matchCenterAt []
  | c :: rest =>
    match matchCenterAt (c :: rest) with
    | some r => some r
    | none => searchCenter rest

/-- The scanning loop of re.findall of the float pattern: on a match
record the token and continue after it (non-overlapping), else advance
one character.  The fuel argument only bounds the recursion; since each
step consumes at least one character, any fuel of at least the input
length computes the full scan (findallFloatGo_fuel below). -/
def findallFloatGo : ℕ → List Char → List (List Char)
  | 0, _ => []
  | _, [] => []
  | fuel + 1, c :: rest =>
    match matchFloatAt (c :: rest) with
    | some tr => tr.1 :: findallFloatGo fuel tr.2
    | none => findallFloatGo fuel rest

/-- re.findall of the float pattern over the whole input. -/
def findallFloat (s : List Char) : List (List Char) :=
  findallFloatGo s.length s

/-- Model of utils.extract_coordinates_from_url: tier 1 searches for the
center marker @float,float; tier 2 takes the first two float tokens; else
(None, None).  Total by construction (the try/except in the source can
only fire on conditions impossible for matched tokens). -/
def extract_coordinates_from_url (url : List Char) : Option ℚ × Option ℚ :=
  match searchCenter url with
  | some ab => (some ab.1, some ab.2)
  | none =>
    match findallFloat url with
    | t1 :: t2 :: _ => (some (parseFloat t1), some (parseFloat t2))
    | _ => (none, none)

/-- The spec's tiered reference definition of resolveCoordinates, written
independently: tier 1 is phrased as the first position (in order of
appearance) at which the canonical center-marker shape matches; tier 2
takes the first two floating-point-looking substrings; tier 3 is
unresolved. -/
def resolveCoordinatesSpec (url : List Char) : Option ℚ × Option ℚ :=
  match ((List.range (url.length + 1)).filterMap
      fun i => matchCenterAt (url.drop i)).head? with
  | some ab => (some ab.1, some ab.2)
  | none =>
    match findallFloat url with
    | t1 :: t2 :: _ => (some (parseFloat t1), some (parseFloat t2))
    | _ => (none, none)

/-! ## Geometry (src/utils.py, haversine_distance)

Math library calls are modelled over the reals. -/

/-- math.radians: degrees to radians. -/
noncomputable def radians (d : ℝ) : ℝ := d * (Real.pi / 180)

/-- math.atan2 with the usual quadrant conventions. -/
noncomputable def atan2 (y x : ℝ) : ℝ :=
  if 0 < x then Real.arctan (y / x)
  else if x < 0 then
    (if 0 ≤ y then Real.arctan (y / x) + Real.pi
     else Real.arctan (y / x) - Real.pi)
  else
    (if 0 < y then Real.pi / 2 else if y < 0 then -(Real.pi / 2) else 0)

/-- The intermediate haversine quantity a from utils.haversine_distance. -/
noncomputable def haversine_a (lat1 lon1 lat2 lon2 : ℝ) : ℝ :=
  Real.sin (radians (lat2 - lat1) / 2) ^ 2 +
    Real.cos (radians lat1) * Real.cos (radians lat2) *
      Real.sin (radians (lon2 - lon1) / 2) ^ 2

/-- utils.haversine_distance with mean Earth radius 6371000 m. -/
noncomputable def haversine_distance (lat1 lon1 lat2 lon2 : ℝ) : ℝ :=
  6371000 *
    (2 * atan2 (Real.sqrt (haversine_a lat1 lon1 lat2 lon2))
      (Real.sqrt (1 - haversine_a lat1 lon1 lat2 lon2)))

/-! ## Listing extractor (src/scraper.py, parse_left_panel_pois)

The rendered page is modelled as a tree of elements and text nodes; the
BeautifulSoup operations used by the source are defined on it:
find_all / find in document (preorder) order, attribute access,
multi-valued class matching, and get_text(strip=True). -/

/-- A node of the parsed markup: a text run or an element with a tag
name, attributes and children. -/
inductive Node where
  | text (s : String)
  | elem (tag : String) (attrs : List (String × String)) (children : List Node)

/-- Tag name of an element; text nodes have none. -/
def Node.tagName : Node → Option String
  | .text _ => none
  | .elem t _ _ => some t

/-- Attribute lookup. -/
def Node.attr : Node → String → Option String
  | .text _, _ => none
  | .elem _ al _, k => al.lookup k

/-- Attribute value with default empty string (Python .get(k) or ''). -/
def attrD (n : Node) (k : String) : String := (n.attr k).getD ""

/-- Attribute presence (BeautifulSoup attrs with value True). -/
def hasAttr (n : Node) (k : String) : Bool := (n.attr k).isSome

/-- Whether a node is an element with the given tag name. -/
def isTag (n : Node) (t : String) : Bool := n.tagName == some t

/-- Python str.strip(): remove leading and trailing whitespace. -/
def trimStr (s : String) : String :=
  let l := s.toList.dropWhile Char.isWhitespace
  String.mk (l.reverse.dropWhile Char.isWhitespace).reverse

/-- Split a character stream into maximal whitespace-free words; the
accumulator holds the current word reversed. -/
def wordsAux : List Char → List Char → List String
  | [], cur => if cur.isEmpty then [] else [String.mk cur.reverse]
  | c :: rest, cur =>
    if c.isWhitespace then
      if cur.isEmpty then wordsAux rest []
      else String.mk cur.reverse :: wordsAux rest []
    else wordsAux rest (c :: cur)

/-- The whitespace-separated class list of an element. -/
def classList (n : Node) : List String :=
  wordsAux (attrD n "class").toList []

/-- BeautifulSoup class_ matching: the class list contains the value. -/
def hasClass (n : Node) (c : String) : Bool := (classList n).contains c

mutual

/-- All elements of a subtree in document (preorder) order, root first. -/
def nodeElems : Node → List Node
  | .text _ => []
  | .elem t al cs => .elem t al cs :: listElems cs

/-- All elements of a forest in document order. -/
def listElems : List Node → List Node
  | [] => []
  | n :: ns => nodeElems n ++ listElems ns

end

mutual

/-- The stripped text runs of a subtree in document order
(BeautifulSoup stripped_strings). -/
def nodeStrips : Node → List String
  | .text s => [trimStr s]
  | .elem _ _ cs => listStrips cs

/-- The stripped text runs of a forest. -/
def listStrips : List Node → List String
  | [] => []
  | n :: ns => nodeStrips n ++ listStrips ns

end

/-- get_text(strip=True): concatenation of the stripped text runs. -/
def getTextStrip (n : Node) : String := String.join (nodeStrips n)

/-- tag.find(...): first strict descendant satisfying the predicate, in
document order. -/
def findDesc (p : Node → Bool) (n : Node) : Option Node :=
  match n with
  | .text _ => none
  | .elem _ _ cs => (listElems cs).find? p

/-- Whether the first list occurs contiguously inside the second. -/
def listInfix (needle : List Char) : List Char → Bool
  | [] => needle.isEmpty
  | c :: rest => List.isPrefixOf needle (c :: rest) || listInfix needle rest

/-- Substring containment (Python in operator on strings). -/
def containsSub (needle hay : String) : Bool :=
  listInfix needle.toList hay.toList

/-- Characters stripped by .strip of a parenthesis pair. -/
def isParen (c : Char) : Bool := c = '(' || c = ')'

/-- Python str.strip of parenthesis characters: remove them from both
ends. -/
def stripParens (s : String) : String :=
  let l := s.toList.dropWhile isParen
  String.mk (l.reverse.dropWhile isParen).reverse

/-- A raw extraction result (one entry of the candidates list). -/
structure Candidate where
  name : String
  link : String
  rating : String
  reviews : String
deriving DecidableEq

/-- Link extraction for one card (lines 30-34): the card's own href if it
is an anchor with a non-empty href, else the first nested anchor's href,
else empty. -/
def cardLink (card : Node) : String :=
  if isTag card "a" && attrD card "href" != "" then attrD card "href"
  else
    match findDesc (fun n => isTag n "a" && hasAttr n "href") card with
    | some lt => attrD lt "href"
    | none => ""

/-- Name extraction for one card (lines 36-49): aria-label, else a known
heading sub-element's text, else the card's visible text truncated to 200
characters.  (The elif on line 40 repeats the line 38 condition and is
unreachable.) -/
def cardName (card : Node) : String :=
  let n1 := attrD card "aria-label"
  let n2 :=
    if n1 = "" then
      match findDesc (fun n => isTag n "div" && hasClass n "qBF1Pd") card with
      | some tg => getTextStrip tg
      | none =>
        match findDesc
            (fun n => isTag n "div" && hasClass n "fontHeadlineSmall") card with
        | some tg => getTextStrip tg
        | none => ""
    else n1
  if n2 = "" then (getTextStrip card).take 200 else n2

/-- Rating extraction (lines 52-53). -/
def cardRating (card : Node) : String :=
  match findDesc (fun n => isTag n "span" && hasClass n "MW4etd") card with
  | some tg => getTextStrip tg
  | none =>
    match findDesc (fun n => isTag n "span" && hasAttr n "aria-label") card with
    | some tg => getTextStrip tg
    | none => ""

/-- Review-count extraction (lines 56-58), with surrounding parentheses
stripped. -/
def cardReviews (card : Node) : String :=
  let raw :=
    match findDesc (fun n => isTag n "span" && hasClass n "UY7F9") card with
    | some tg => getTextStrip tg
    | none =>
      match findDesc (fun n => isTag n "span" && hasAttr n "aria-hidden") card with
      | some tg => getTextStrip tg
      | none => ""
  stripParens raw

/-- Per-card extraction (the try-block body, lines 29-66): produces the
candidate, or none when the name guard on line 60 rejects it. -/
def extractCard (card : Node) : Option Candidate :=
  if cardName card ≠ "" then
    some ⟨cardName card, cardLink card, cardRating card, cardReviews card⟩
  else none

/-- The card loop of parse_left_panel_pois (lines 24-68), parametrized by
the per-card body so that the local try/except is explicit: an error
outcome is caught and the card skipped; the cap is checked before each
card is inspected. -/
def poisLoop (body : Node → Except String (Option Candidate)) (maxR : ℕ) :
    List Node → List Candidate → List Candidate
  | [], acc => acc
  | c :: rest, acc =>
    if maxR ≤ acc.length then acc
    else
      match body c with
      | .error _ => poisLoop body maxR rest acc
      | .ok none => poisLoop body maxR rest acc
      | .ok (some cand) => poisLoop body maxR rest (acc ++ [cand])

/-- Card selection (lines 17-22): primary structural signature, falling
back to place/maps-looking anchors with visible text. -/
def selectCards (root : Node) : List Node :=
  let cards := (nodeElems root).filter fun n => isTag n "div" && hasClass n "Nv2PK"
  if cards.isEmpty then
    (nodeElems root).filter fun a =>
      isTag a "a" && hasAttr a "href" &&
        (containsSub "/place/" (attrD a "href") ||
          containsSub "/maps" (attrD a "href")) &&
        getTextStrip a != ""
  else cards

/-- Model of scraper.parse_left_panel_pois. -/
def parse_left_panel_pois (root : Node) (maxR : ℕ) : List Candidate :=
  poisLoop (fun c => Except.ok (extractCard c)) maxR (selectCards root) []

/-! ## Record assembly (src/scraper.py, scrape_for_query lines 80-99)

A persisted row; latitude, longitude and distance are Option-valued to
model the rendering on lines 93-98, which substitutes 'N-slash-A' or the
empty string when the corresponding Python value is falsy (None or 0.0). -/

/-- One output row of scrape_for_query.  latF/lonF are none exactly when
the source renders the placeholder instead of a coordinate; distF is none
exactly when the source renders the empty string. -/
structure PoiRow where
  name : String
  rating : String
  reviews : String
  latF : Option ℚ
  lonF : Option ℚ
  query : String
  centerLat : ℚ
  centerLon : ℚ
  distF : Option ℝ

/-- Lines 82-85: resolve the candidate link, substituting the cell center
when either coordinate is missing. -/
def resolvePoint (link : List Char) (lat lon : ℚ) : ℚ × ℚ :=
  match extract_coordinates_from_url link with
  | (some a, some b) => (a, b)
  | _ => (lat, lon)

/-- Lines 87-99: assemble one row.  The conditions mirror the Python
truthiness tests: a float is falsy exactly when it equals 0. -/
noncomputable def assembleRow (p : Candidate) (query : String) (lat lon : ℚ) :
    PoiRow :=
  let pl := resolvePoint p.link.toList lat lon
  { name := p.name
    rating := p.rating
    reviews := p.reviews
    latF := if pl.1 ≠ 0 then some pl.1 else none
    lonF := if pl.2 ≠ 0 then some pl.2 else none
    query := query
    centerLat := lat
    centerLon := lon
    distF :=
      if pl.1 ≠ 0 ∧ pl.2 ≠ 0 then
        some (haversine_distance (lat : ℝ) (lon : ℝ) (pl.1 : ℝ) (pl.2 : ℝ))
      else none }

/-- The row list built by the loop on lines 81-99. -/
noncomputable def scrape_rows (pois : List Candidate) (query : String)
    (lat lon : ℚ) : List PoiRow :=
  pois.map fun p => assembleRow p query lat lon

/-! ## Persistence (src/utils.py, write_rows_to_csv)

The file system is a map from paths to file contents (a list of CSV
rows); a missing path is an absent file. -/

/-- File-system state: contents per path. -/
abbrev FS : Type := String → Option (List (List String))

/-- Model of utils.write_rows_to_csv: append-mode open (creating an empty
file if absent), header written only when the file did not exist and a
non-empty header was supplied, then the rows in order. -/
def write_rows_to_csv (fs : FS) (path : String) (rows : List (List String))
    (header : Option (List String)) : FS :=
  let first_time : Bool := (fs path).isNone
  let existing : List (List String) := (fs path).getD []
  let contents : List (List String) :=
    match header with
    | some hd =>
      if hd ≠ [] ∧ first_time = true then existing ++ hd :: rows
      else existing ++ rows
    | none => existing ++ rows
  fun q => if q = path then some contents else fs q

/-- The empty file system. -/
def emptyFS : FS := fun _ => none

/-! ## Concrete inputs used by witnesses and failing-input evaluations. -/

/-- A result card carrying its name in an aria-label. -/
def sampleCard : Node :=
  .elem "div" [("class", "Nv2PK"), ("aria-label", "Cafe")] []

/-- A minimal page containing one result card. -/
def sampleRoot : Node := .elem "html" [] [.elem "body" [] [sampleCard]]

/-- A node on which the failing per-card body errors. -/
def badNode : Node := .elem "b" [] []

/-- A second well-formed card. -/
def goodNode : Node := .elem "div" [("class", "Nv2PK"), ("aria-label", "Shop")] []

/-- A per-card body that raises on badNode and behaves like the source
body elsewhere. -/
def failingBody (n : Node) : Except String (Option Candidate) :=
  if isTag n "b" then .error "boom" else .ok (extractCard n)

/-- A candidate whose location reference resolves (tier 2) to latitude 0
and longitude 5.5. -/
def zeroLatCand : Candidate := ⟨"Spot", "a0.0b5.5c", "", ""⟩

/-- A candidate whose location reference resolves at no tier. -/
def unresolvedCand : Candidate := ⟨"Plain", "", "", ""⟩

/-! # Theorems -/

/-- The dropWhile remainder is never longer than the list. -/
theorem length_dropWhile_le (p : Char → Bool) (l : List Char) :
    (l.dropWhile p).length ≤ l.length := by
  have h := congrArg List.length (List.takeWhile_append_dropWhile p (l := l))
  rw [List.length_append] at h
  omega

/-- matchUFloatAt consumes at least one character. -/
theorem matchUFloatAt_rest_lt (u t r : List Char)
    (hu : matchUFloatAt u = some (t, r)) : r.length < u.length := by
  unfold matchUFloatAt at hu
  by_cases h1 : u.takeWhile Char.isDigit = []
  · simp [h1] at hu
  · simp only [h1, if_false] at hu
    split at hu
    · rename_i r2 heq
      by_cases h3 : r2.takeWhile Char.isDigit = []
      · simp [h3] at hu
      · simp only [h3, if_false, Option.some.injEq, Prod.mk.injEq] at hu
        have hr : r.length = (r2.dropWhile Char.isDigit).length := by
          rw [hu.2.symm]
        have l1 : (r2.dropWhile Char.isDigit).length ≤ r2.length :=
          length_dropWhile_le _ _
        have l2 : (u.dropWhile Char.isDigit).length ≤ u.length :=
          length_dropWhile_le _ _
        rw [heq] at l2
        simp only [List.length_cons] at l2
        omega
    · simp at hu

/-- matchFloatAt consumes at least one character. -/
theorem matchFloatAt_rest_lt (s : List Char) (t r : List Char)
    (h : matchFloatAt s = some (t, r)) : r.length < s.length := by
  cases s with
  | nil => simp [matchFloatAt] at h
  | cons c0 r0 =>
    rw [matchFloatAt] at h
    by_cases hc : c0 = '-'
    · simp only [hc, if_true, Option.map_eq_some'] at h
      obtain ⟨⟨t0, r0'⟩, h1, h2⟩ := h
      have hlt := matchUFloatAt_rest_lt r0 t0 r0' h1
      have hre : r = r0' := by
        have := congrArg Prod.snd h2
        simpa using this.symm
      rw [hre]
      simp only [List.length_cons]
      omega
    · simp only [hc, if_false] at h
      exact matchUFloatAt_rest_lt _ _ _ h

/-- Fuel irrelevance for the findall scan: any fuel of at least the
input length computes the same (full) result. -/
theorem findallFloatGo_fuel : ∀ (f1 f2 : ℕ) (s : List Char),
    s.length ≤ f1 → s.length ≤ f2 →
    findallFloatGo f1 s = findallFloatGo f2 s := by
  intro f1
  induction f1 with
  | zero =>
    intro f2 s h1 h2
    have hs : s = [] := List.length_eq_zero.mp (Nat.le_zero.mp h1)
    subst hs
    cases f2 <;> rfl
  | succ f1' ih =>
    intro f2 s h1 h2
    cases s with
    | nil => cases f2 <;> rfl
    | cons c rest =>
      cases f2 with
      | zero => simp at h2
      | succ f2' =>
        rw [findallFloatGo, findallFloatGo]
        simp only [List.length_cons] at h1 h2
        cases hm : matchFloatAt (c :: rest) with
        | some tr =>
          have hlt : tr.2.length < (c :: rest).length :=
            matchFloatAt_rest_lt (c :: rest) tr.1 tr.2 (by rw [hm])
          simp only [List.length_cons] at hlt
          show tr.1 :: findallFloatGo f1' tr.2 = tr.1 :: findallFloatGo f2' tr.2
          rw [ih f2' tr.2 (by omega) (by omega)]
        | none =>
          show findallFloatGo f1' rest = findallFloatGo f2' rest
          rw [ih f2' rest (by omega) (by omega)]

/-- When no position of the input starts a float token, the findall scan
returns nothing. -/
theorem findallFloat_eq_nil (s : List Char)
    (h : ∀ i, i ≤ s.length → matchFloatAt (s.drop i) = none) :
    findallFloat s = [] := by
  suffices H : ∀ (f : ℕ) (u : List Char),
      (∀ i, i ≤ u.length → matchFloatAt (u.drop i) = none) →
      findallFloatGo f u = [] by
    exact H s.length s h
  intro f
  induction f with
  | zero => intro u hu; cases u <;> rfl
  | succ f' ih =>
    intro u hu
    cases u with
    | nil => rfl
    | cons c rest =>
      rw [findallFloatGo]
      have h0 : matchFloatAt (c :: rest) = none := by
        simpa using hu 0 (by omega)
      rw [h0]
      exact ih rest fun i hi => by
        simpa using hu (i + 1) (by simpa using Nat.succ_le_succ hi)

/-- A center-marker match requires a float token right after its first
character. -/
theorem matchCenterAt_eq_none (t : List Char)
    (h : matchFloatAt (t.drop 1) = none) : matchCenterAt t = none := by
  cases t with
  | nil => rfl
  | cons c r =>
    simp only [List.drop_succ_cons, List.drop_zero] at h
    unfold matchCenterAt
    split
    · rename_i r' heq
      injection heq with h1 h2
      subst h2
      rw [h]
    · rfl

/-- When no position of the input starts a float token, the center-marker
search fails. -/
theorem searchCenter_eq_none : ∀ (s : List Char),
    (∀ i, i ≤ s.length → matchFloatAt (s.drop i) = none) →
    searchCenter s = none := by
  intro s
  induction s with
  | nil => intro h; rfl
  | cons c r ih =>
    intro h
    have h1 : matchFloatAt ((c :: r).drop 1) = none := h 1 (by simp)
    have hm : matchCenterAt (c :: r) = none := matchCenterAt_eq_none _ h1
    rw [searchCenter]
    simp only [hm]
    show searchCenter r = none
    exact ih fun i hi => by
      simpa using h (i + 1) (by simpa using Nat.succ_le_succ hi)

/-- The scanning search equals the spec phrasing: the first position, in
order of appearance, at which the center-marker shape matches. -/
theorem searchCenter_eq_spec : ∀ (s : List Char),
    searchCenter s =
      ((List.range (s.length + 1)).filterMap
        fun i => matchCenterAt (s.drop i)).head? := by
  intro s
  induction s with
  | nil => rfl
  | cons c r ih =>
    rw [searchCenter]
    cases hm : matchCenterAt (c :: r) with
    | some ab =>
      simp only [hm]
      conv_rhs => rw [List.length_cons, List.range_succ_eq_map, List.filterMap_cons]
      simp only [List.drop_zero, hm]
      rfl
    | none =>
      simp only [hm]
      show searchCenter r = _
      conv_rhs => rw [List.length_cons, List.range_succ_eq_map, List.filterMap_cons]
      simp only [List.drop_zero, hm]
      rw [List.filterMap_map]
      rw [show ((fun i => matchCenterAt (List.drop i (c :: r))) ∘ Nat.succ) =
        (fun i => matchCenterAt (List.drop i r)) from
          funext fun i => by simp [Function.comp]]
      exact ih

/-- Claim C2: extract_coordinates_from_url is total by construction and
coincides, on every input string, with the spec's tiered reference
definition resolveCoordinatesSpec (canonical center marker first, then
first two floating-point substrings, then unresolved). -/
theorem resolver_matches_spec (url : List Char) :
    extract_coordinates_from_url url = resolveCoordinatesSpec url := by
  unfold extract_coordinates_from_url resolveCoordinatesSpec
  rw [searchCenter_eq_spec]

/-- Claim C10: a location reference in which no position starts a
floating-point token (sign, digits, dot, digits) - in particular one
whose numeric tokens are all integers - resolves at no tier: the result
is (none, none). -/
theorem resolver_ignores_integer_tokens (url : List Char)
    (h : ∀ i, i ≤ url.length → matchFloatAt (url.drop i) = none) :
    extract_coordinates_from_url url = (none, none) := by
  unfold extract_coordinates_from_url
  rw [searchCenter_eq_none url h, findallFloat_eq_nil url h]

/-- Witness for C10 at the canonical-looking all-integer reference. -/
theorem resolver_ignores_integer_tokens_witness :
    (∀ i, i ≤ ("@38,-77,15z".toList).length →
        matchFloatAt (("@38,-77,15z".toList).drop i) = none) ∧
      extract_coordinates_from_url "@38,-77,15z".toList = (none, none) := by
  have h : ∀ i, i ≤ ("@38,-77,15z".toList).length →
      matchFloatAt (("@38,-77,15z".toList).drop i) = none := by decide
  exact ⟨h, resolver_ignores_integer_tokens _ h⟩

/-- Closed form of one while-loop axis: for a positive step, the visited
points are x, x + stp, ... for exactly floor((e - x) / stp) + 1 steps
(zero when e < x). -/
theorem gridPoints_eq (stp e : ℚ) (hs : 0 < stp) : ∀ x : ℚ,
    gridPoints stp e x =
      (List.range ((⌊(e - x) / stp⌋ + 1).toNat)).map
        fun k : ℕ => x + (k : ℚ) * stp := by
  intro x
  induction x using gridPoints.induct stp e with
  | case1 x h ih =>
    rw [gridPoints, dif_pos h]
    have hfl : (0 : ℤ) ≤ ⌊(e - x) / stp⌋ :=
      Int.floor_nonneg.mpr (div_nonneg (by linarith [h.2]) hs.le)
    have hstep : (e - (x + stp)) / stp = (e - x) / stp - 1 := by
      rw [show e - (x + stp) = (e - x) - stp by ring, sub_div,
        div_self (ne_of_gt hs)]
    have hm : ((⌊(e - (x + stp)) / stp⌋ + 1).toNat) = ⌊(e - x) / stp⌋.toNat := by
      rw [hstep, Int.floor_sub_one]
      omega
    have hn : ((⌊(e - x) / stp⌋ + 1).toNat) = ⌊(e - x) / stp⌋.toNat + 1 := by
      omega
    rw [ih, hm, hn, List.range_succ_eq_map, List.map_cons, List.map_map]
    congr 1
    · norm_num
    · refine List.map_congr_left fun k _ => ?_
      simp only [Function.comp]
      push_cast
      ring
  | case2 x h =>
    rw [gridPoints, dif_neg h]
    have hxe : e < x := by
      by_contra hcon
      exact h ⟨hs, by linarith⟩
    have h4 : (e - x) / stp < 0 := div_neg_of_neg_of_pos (by linarith) hs
    have h5 : ⌊(e - x) / stp⌋ < 0 := Int.floor_lt.mpr (by exact_mod_cast h4)
    have h6 : ((⌊(e - x) / stp⌋ + 1).toNat) = 0 := by omega
    rw [h6]
    rfl

/-- Claim C1 (amended): with the epsilon tolerance 1e-12 that the source
loop adds to each end bound, the traversal visits exactly
(floor((endLat - startLat + eps) / stepLat) + 1) *
(floor((endLon - startLon + eps) / stepLon) + 1) cells, in row-major
order: latitude ascending in the outer loop, longitude ascending in the
inner loop, each bound inclusive up to the tolerance. -/
theorem grid_traversal_rowmajor_count (sLat eLat sLon eLon stpLat stpLon : ℚ)
    (hLat : 0 < stpLat) (hLon : 0 < stpLon)
    (h1 : sLat ≤ eLat) (h2 : sLon ≤ eLon) :
    run_scraper_cells sLat eLat sLon eLon stpLat stpLon =
      (List.range ((⌊(eLat + eps - sLat) / stpLat⌋ + 1).toNat)).flatMap
        (fun i : ℕ =>
          (List.range ((⌊(eLon + eps - sLon) / stpLon⌋ + 1).toNat)).map
            fun j : ℕ => (sLat + (i : ℚ) * stpLat, sLon + (j : ℚ) * stpLon)) ∧
      (run_scraper_cells sLat eLat sLon eLon stpLat stpLon).length =
        ((⌊(eLat + eps - sLat) / stpLat⌋ + 1).toNat) *
          ((⌊(eLon + eps - sLon) / stpLon⌋ + 1).toNat) := by
  have hA := gridPoints_eq stpLat (eLat + eps) hLat sLat
  have hB := gridPoints_eq stpLon (eLon + eps) hLon sLon
  have hmain : run_scraper_cells sLat eLat sLon eLon stpLat stpLon =
      (List.range ((⌊(eLat + eps - sLat) / stpLat⌋ + 1).toNat)).flatMap
        (fun i : ℕ =>
          (List.range ((⌊(eLon + eps - sLon) / stpLon⌋ + 1).toNat)).map
            fun j : ℕ => (sLat + (i : ℚ) * stpLat, sLon + (j : ℚ) * stpLon)) := by
    unfold run_scraper_cells
    rw [hA, hB, List.flatMap_map]
    simp only [List.map_map]
    rfl
  refine ⟨hmain, ?_⟩
  rw [hmain, List.length_flatMap]
  simp only [Function.comp_def, List.length_map, List.length_range]
  show (List.map
    (Function.const ℕ ((⌊(eLon + eps - sLon) / stpLon⌋ + 1).toNat))
    (List.range ((⌊(eLat + eps - sLat) / stpLat⌋ + 1).toNat))).sum = _
  rw [List.map_const, List.sum_replicate, List.length_range, smul_eq_mul]

/-- Claim C1 as literally stated is false on the code: with start = end =
0 on both axes, latitude step 1e-12 and longitude step 1, the loop visits
2 cells (the epsilon admits one extra latitude row), while the claimed
formula (floor((end-start)/step)+1) on each axis gives 1. -/
theorem grid_count_formula_counterexample :
    (run_scraper_cells 0 0 0 0 eps 1).length = 2 ∧
      ((⌊((0 : ℚ) - 0) / eps⌋ + 1).toNat) * ((⌊((0 : ℚ) - 0) / 1⌋ + 1).toNat) = 1 := by
  constructor
  · have hA := gridPoints_eq eps (0 + eps) (by norm_num [eps]) 0
    have hB := gridPoints_eq 1 (0 + eps) (by norm_num) 0
    have e1 : ⌊((0 : ℚ) + eps - 0) / eps⌋ = 1 := by
      rw [show ((0 : ℚ) + eps - 0) / eps = 1 by rw [zero_add, sub_zero,
        div_self (by norm_num [eps])]]
      exact Int.floor_one
    have e2 : ⌊((0 : ℚ) + eps - 0) / 1⌋ = 0 := by
      rw [show ((0 : ℚ) + eps - 0) / 1 = eps by ring]
      exact Int.floor_eq_zero_iff.mpr ⟨by norm_num [eps], by norm_num [eps]⟩
    unfold run_scraper_cells
    rw [hA, hB, e1, e2, List.flatMap_map, List.length_flatMap]
    decide
  · norm_num

/-- Witness for the amended C1 at a concrete admissible configuration. -/
theorem grid_traversal_rowmajor_count_witness :
    (run_scraper_cells 0 1 0 1 1 1).length =
      ((⌊((1 : ℚ) + eps - 0) / 1⌋ + 1).toNat) *
        ((⌊((1 : ℚ) + eps - 0) / 1⌋ + 1).toNat) :=
  (grid_traversal_rowmajor_count 0 1 0 1 1 1 (by norm_num) (by norm_num)
    (by norm_num) (by norm_num)).2

/-- Claim C5: appending to a sink that does not yet exist creates it with
exactly one header row followed by the given records in order; a second
append to the same sink (with or without a header argument) appends the
new records after the existing content, without repeating the header and
without rewriting or truncating what was already written. -/
theorem append_records_create_then_append (fs : FS) (path : String)
    (r1 r2 : List (List String)) (hd : List String)
    (hdr2 : Option (List String)) (hne : hd ≠ []) (h0 : fs path = none) :
    write_rows_to_csv fs path r1 (some hd) path = some (hd :: r1) ∧
    write_rows_to_csv (write_rows_to_csv fs path r1 (some hd)) path r2 hdr2
        path = some (hd :: (r1 ++ r2)) := by
  have hfirst : write_rows_to_csv fs path r1 (some hd) path = some (hd :: r1) := by
    unfold write_rows_to_csv
    simp [h0, hne]
  refine ⟨hfirst, ?_⟩
  unfold write_rows_to_csv
  cases hdr2 with
  | none => simp [h0, hne]
  | some hd2 => simp [h0, hne]

/-- Witness for C5 on a one-row append to a fresh sink followed by a
second append. -/
theorem append_records_create_then_append_witness :
    (["H"] : List String) ≠ [] ∧ emptyFS "p" = none ∧
    (write_rows_to_csv emptyFS "p" [["a"]] (some ["H"]) "p" = some [["H"], ["a"]] ∧
      write_rows_to_csv (write_rows_to_csv emptyFS "p" [["a"]] (some ["H"]))
          "p" [["b"]] (some ["H"]) "p" = some [["H"], ["a"], ["b"]]) := by
  refine ⟨by decide, rfl, ?_⟩
  exact append_records_create_then_append emptyFS "p" [["a"]] [["b"]] ["H"]
    (some ["H"]) (by decide) rfl

/-- When the cap is already reached, the card loop inspects no card. -/
theorem poisLoop_of_full (body : Node → Except String (Option Candidate))
    (maxR : ℕ) (cs : List Node) (acc : List Candidate)
    (h : maxR ≤ acc.length) : poisLoop body maxR cs acc = acc := by
  cases cs with
  | nil => rfl
  | cons c rest => rw [poisLoop, if_pos h]

/-- The card loop never grows the accumulator beyond the cap. -/
theorem poisLoop_length_le (body : Node → Except String (Option Candidate))
    (maxR : ℕ) : ∀ (cs : List Node) (acc : List Candidate),
      acc.length ≤ maxR → (poisLoop body maxR cs acc).length ≤ maxR := by
  intro cs
  induction cs with
  | nil => intro acc h; exact h
  | cons c rest ih =>
    intro acc h
    rw [poisLoop]
    by_cases hf : maxR ≤ acc.length
    · rw [if_pos hf]; exact h
    · rw [if_neg hf]
      cases hbc : body c with
      | error e => exact ih acc h
      | ok o =>
        cases o with
        | none => exact ih acc h
        | some cand =>
          refine ih (acc ++ [cand]) ?_
          simp only [List.length_append, List.length_cons, List.length_nil]
          omega

/-- Cards past the point where the cap is reached never affect the
result. -/
theorem poisLoop_append_of_full (body : Node → Except String (Option Candidate))
    (maxR : ℕ) : ∀ (cs ds : List Node) (acc : List Candidate),
      maxR ≤ (poisLoop body maxR cs acc).length →
      poisLoop body maxR (cs ++ ds) acc = poisLoop body maxR cs acc := by
  intro cs
  induction cs with
  | nil =>
    intro ds acc h
    exact poisLoop_of_full body maxR ds acc h
  | cons c rest ih =>
    intro ds acc h
    simp only [List.cons_append]
    rw [poisLoop]
    conv_rhs => rw [poisLoop]
    by_cases hf : maxR ≤ acc.length
    · rw [if_pos hf, if_pos hf]
    · rw [if_neg hf, if_neg hf]
      have h' : maxR ≤ (match body c with
          | .error _ => poisLoop body maxR rest acc
          | .ok none => poisLoop body maxR rest acc
          | .ok (some cand) => poisLoop body maxR rest (acc ++ [cand])).length := by
        rw [poisLoop, if_neg hf] at h
        exact h
      cases hbc : body c with
      | error e =>
        rw [hbc] at h'
        exact ih ds acc h'
      | ok o =>
        cases o with
        | none =>
          rw [hbc] at h'
          exact ih ds acc h'
        | some cand =>
          rw [hbc] at h'
          exact ih ds (acc ++ [cand]) h'

/-- Claim C6: on every markup input the extractor returns at most
maxResults candidates, and the loop stops early: once the cap is reached
on a prefix of the card list, any cards that follow never change the
result. -/
theorem extract_candidates_capped (root : Node) (maxR : ℕ) :
    (parse_left_panel_pois root maxR).length ≤ maxR ∧
    ∀ (body : Node → Except String (Option Candidate)) (cs ds : List Node)
      (acc : List Candidate),
        maxR ≤ (poisLoop body maxR cs acc).length →
        poisLoop body maxR (cs ++ ds) acc = poisLoop body maxR cs acc := by
  constructor
  · exact poisLoop_length_le _ maxR _ [] (by simp)
  · intro body cs ds acc h
    exact poisLoop_append_of_full body maxR cs ds acc h

/-- Witness for C6: the cap of 1 holds on the sample page, and cards
after a cap-reaching prefix are ignored. -/
theorem extract_candidates_capped_witness :
    (parse_left_panel_pois sampleRoot 1).length ≤ 1 ∧
      poisLoop (fun c => Except.ok (extractCard c)) 1
          ([sampleCard] ++ [goodNode]) [] =
        poisLoop (fun c => Except.ok (extractCard c)) 1 [sampleCard] [] := by
  have h := extract_candidates_capped sampleRoot 1
  refine ⟨h.1, h.2 _ [sampleCard] [goodNode] [] ?_⟩
  decide

/-- A candidate emitted by the per-card extractor has a non-empty name
(the guard on line 60 of scraper.py). -/
theorem extractCard_name_ne (card : Node) (cand : Candidate)
    (h : extractCard card = some cand) : cand.name ≠ "" := by
  unfold extractCard at h
  by_cases hn : cardName card ≠ ""
  · rw [if_pos hn] at h
    have hc : cand = ⟨cardName card, cardLink card, cardRating card,
        cardReviews card⟩ := by
      injection h with h'
      exact h'.symm
    rw [hc]
    exact hn
  · rw [if_neg hn] at h
    exact absurd h (by simp)

/-- Every candidate in the loop output has a non-empty name, provided the
accumulator already satisfies this. -/
theorem poisLoop_names (maxR : ℕ) : ∀ (cs : List Node) (acc : List Candidate),
    (∀ x ∈ acc, x.name ≠ "") →
    ∀ x ∈ poisLoop (fun c => Except.ok (extractCard c)) maxR cs acc,
      x.name ≠ "" := by
  intro cs
  induction cs with
  | nil => intro acc hacc x hx; exact hacc x hx
  | cons c rest ih =>
    intro acc hacc x hx
    rw [poisLoop] at hx
    by_cases hf : maxR ≤ acc.length
    · rw [if_pos hf] at hx
      exact hacc x hx
    · rw [if_neg hf] at hx
      cases he : extractCard c with
      | none =>
        rw [he] at hx
        exact ih acc hacc x hx
      | some cand =>
        rw [he] at hx
        refine ih (acc ++ [cand]) ?_ x hx
        intro y hy
        rcases List.mem_append.mp hy with hy1 | hy2
        · exact hacc y hy1
        · rw [List.mem_singleton] at hy2
          subst hy2
          exact extractCard_name_ne c y he

/-- Claim C8: every candidate emitted by the extractor has a non-empty
name; a card whose name resolves to empty after all tiers is discarded. -/
theorem extract_candidates_name_nonempty (root : Node) (maxR : ℕ)
    (x : Candidate) (hx : x ∈ parse_left_panel_pois root maxR) :
    x.name ≠ "" := by
  exact poisLoop_names maxR (selectCards root) [] (by simp) x hx

/-- Witness for C8 on the sample page. -/
theorem extract_candidates_name_nonempty_witness :
    (⟨"Cafe", "", "", ""⟩ : Candidate) ∈ parse_left_panel_pois sampleRoot 5 ∧
      (⟨"Cafe", "", "", ""⟩ : Candidate).name ≠ "" := by
  have hx : (⟨"Cafe", "", "", ""⟩ : Candidate) ∈
      parse_left_panel_pois sampleRoot 5 := by decide
  exact ⟨hx, extract_candidates_name_nonempty sampleRoot 5 _ hx⟩

/-- Claim C9: an error raised by the per-card body is caught locally and
only that card is skipped; the cards before and after it are processed
exactly as if the failing card were absent, and extraction never aborts. -/
theorem per_card_error_isolated (body : Node → Except String (Option Candidate))
    (maxR : ℕ) (l1 l2 : List Node) (c : Node) (e : String)
    (hc : body c = Except.error e) :
    ∀ acc, poisLoop body maxR (l1 ++ c :: l2) acc =
      poisLoop body maxR (l1 ++ l2) acc := by
  induction l1 with
  | nil =>
    intro acc
    simp only [List.nil_append]
    by_cases hf : maxR ≤ acc.length
    · rw [poisLoop, if_pos hf, poisLoop_of_full body maxR l2 acc hf]
    · rw [poisLoop, if_neg hf, hc]
  | cons d rest ih =>
    intro acc
    simp only [List.cons_append]
    rw [poisLoop]
    conv_rhs => rw [poisLoop]
    by_cases hf : maxR ≤ acc.length
    · rw [if_pos hf, if_pos hf]
    · rw [if_neg hf, if_neg hf]
      cases hbd : body d with
      | error e2 => exact ih acc
      | ok o =>
        cases o with
        | none => exact ih acc
        | some cand => exact ih (acc ++ [cand])

/-- Witness for C9: a body failing on badNode yields the same output as
with badNode removed. -/
theorem per_card_error_isolated_witness :
    failingBody badNode = Except.error "boom" ∧
      poisLoop failingBody 5 ([goodNode] ++ badNode :: []) [] =
        poisLoop failingBody 5 ([goodNode] ++ []) [] := by
  have h : failingBody badNode = Except.error "boom" := rfl
  exact ⟨h, per_card_error_isolated failingBody 5 [goodNode] [] badNode "boom" h []⟩

/-- The haversine intermediate in dot-product form. -/
theorem haversine_a_eq (lat1 lon1 lat2 lon2 : ℝ) :
    haversine_a lat1 lon1 lat2 lon2 =
      (1 - (Real.sin (radians lat1) * Real.sin (radians lat2) +
        Real.cos (radians lat1) * Real.cos (radians lat2) *
          Real.cos (radians (lon2 - lon1)))) / 2 := by
  have hφ : radians (lat2 - lat1) = radians lat2 - radians lat1 := by
    unfold radians; ring
  have hsin : ∀ x : ℝ, Real.sin (x / 2) ^ 2 = (1 - Real.cos x) / 2 := fun x => by
    rw [Real.sin_sq_eq_half_sub, show 2 * (x / 2) = x by ring]; ring
  unfold haversine_a
  rw [hφ, hsin, hsin, Real.cos_sub]
  ring

/-- The unit-circle dot product with a bounded third factor lies in
the interval from -1 to 1. -/
theorem dot_bound (s1 c1 s2 c2 t : ℝ) (h1 : s1 ^ 2 + c1 ^ 2 = 1)
    (h2 : s2 ^ 2 + c2 ^ 2 = 1) (ht1 : -1 ≤ t) (ht2 : t ≤ 1) :
    -1 ≤ s1 * s2 + c1 * c2 * t ∧ s1 * s2 + c1 * c2 * t ≤ 1 := by
  rcases le_or_lt 0 (c1 * c2) with hc | hc
  · constructor
    · nlinarith [sq_nonneg (s1 + s2), sq_nonneg (c1 - c2),
        mul_nonneg hc (by linarith : (0 : ℝ) ≤ t + 1)]
    · nlinarith [sq_nonneg (s1 - s2), sq_nonneg (c1 - c2),
        mul_nonneg hc (by linarith : (0 : ℝ) ≤ 1 - t)]
  · constructor
    · nlinarith [sq_nonneg (s1 + s2), sq_nonneg (c1 + c2),
        mul_nonneg (by linarith : (0 : ℝ) ≤ -(c1 * c2))
          (by linarith : (0 : ℝ) ≤ 1 - t)]
    · nlinarith [sq_nonneg (s1 - s2), sq_nonneg (c1 + c2),
        mul_nonneg (by linarith : (0 : ℝ) ≤ -(c1 * c2))
          (by linarith : (0 : ℝ) ≤ t + 1)]

/-- The haversine intermediate always lies between 0 and 1, so both
square roots in the source receive non-negative arguments (the formula is
well defined on every input, antipodal points included). -/
theorem haversine_a_mem (lat1 lon1 lat2 lon2 : ℝ) :
    0 ≤ haversine_a lat1 lon1 lat2 lon2 ∧
      haversine_a lat1 lon1 lat2 lon2 ≤ 1 := by
  rw [haversine_a_eq]
  have hb := dot_bound (Real.sin (radians lat1)) (Real.cos (radians lat1))
    (Real.sin (radians lat2)) (Real.cos (radians lat2))
    (Real.cos (radians (lon2 - lon1)))
    (Real.sin_sq_add_cos_sq _) (Real.sin_sq_add_cos_sq _)
    (Real.neg_one_le_cos _) (Real.cos_le_one _)
  constructor
  · linarith [hb.2]
  · linarith [hb.1]

/-- The haversine intermediate is symmetric in the two points. -/
theorem haversine_a_symm (lat1 lon1 lat2 lon2 : ℝ) :
    haversine_a lat1 lon1 lat2 lon2 = haversine_a lat2 lon2 lat1 lon1 := by
  rw [haversine_a_eq, haversine_a_eq,
    show radians (lon1 - lon2) = -(radians (lon2 - lon1)) from by
      unfold radians; ring,
    Real.cos_neg]
  ring

/-- The haversine intermediate vanishes on identical points. -/
theorem haversine_a_self (lat lon : ℝ) : haversine_a lat lon lat lon = 0 := by
  unfold haversine_a radians
  simp

/-- The distance from a point to itself is 0. -/
theorem haversine_self (lat lon : ℝ) : haversine_distance lat lon lat lon = 0 := by
  unfold haversine_distance
  rw [haversine_a_self, Real.sqrt_zero, show (1 : ℝ) - 0 = 1 by ring,
    Real.sqrt_one]
  unfold atan2
  rw [if_pos one_pos]
  norm_num [Real.arctan_zero]

/-- The distance is symmetric in its two points. -/
theorem haversine_symm (lat1 lon1 lat2 lon2 : ℝ) :
    haversine_distance lat1 lon1 lat2 lon2 =
      haversine_distance lat2 lon2 lat1 lon1 := by
  unfold haversine_distance
  rw [haversine_a_symm]

/-- Claim C7: haversine_distance (great-circle distance with mean Earth
radius 6371000 m) returns 0 for identical points, is symmetric in its two
points, and is well defined on every input - in particular antipodal
ones - in that the intermediate haversine quantity stays within the
interval from 0 to 1, so no square root of a negative number is taken. -/
theorem haversine_distance_props (lat1 lon1 lat2 lon2 : ℝ) :
    haversine_distance lat1 lon1 lat1 lon1 = 0 ∧
    haversine_distance lat1 lon1 lat2 lon2 =
      haversine_distance lat2 lon2 lat1 lon1 ∧
    0 ≤ haversine_a lat1 lon1 lat2 lon2 ∧
      haversine_a lat1 lon1 lat2 lon2 ≤ 1 :=
  ⟨haversine_self lat1 lon1, haversine_symm lat1 lon1 lat2 lon2,
    (haversine_a_mem lat1 lon1 lat2 lon2).1,
    (haversine_a_mem lat1 lon1 lat2 lon2).2⟩

/-- Parsing the token 0.0 yields 0. -/
theorem parseFloat_zero : parseFloat ['0', '.', '0'] = 0 := by
  have h : parseFloat ['0', '.', '0'] =
      ((0 : ℕ) : ℚ) + ((0 : ℕ) : ℚ) / 10 ^ (1 : ℕ) := rfl
  rw [h]
  norm_num

/-- Parsing the token 5.5 yields 11/2. -/
theorem parseFloat_five_five : parseFloat ['5', '.', '5'] = 11 / 2 := by
  have h : parseFloat ['5', '.', '5'] =
      ((5 : ℕ) : ℚ) + ((5 : ℕ) : ℚ) / 10 ^ (1 : ℕ) := rfl
  rw [h]
  norm_num

/-- The zero-latitude candidate resolves (tier 2) to (0, 11/2). -/
theorem resolvePoint_zeroLat :
    resolvePoint zeroLatCand.link.toList (389 / 10) (-77) = (0, 11 / 2) := by
  have hs : searchCenter zeroLatCand.link.toList = none := by decide
  have hf : findallFloat zeroLatCand.link.toList =
      [['0', '.', '0'], ['5', '.', '5']] := by decide
  unfold resolvePoint extract_coordinates_from_url
  simp only [hs, hf, parseFloat_zero, parseFloat_five_five]

/-- Claim C3 fails on the code (truthiness slip on lines 93-94 of
scraper.py): for a candidate whose reference resolves to latitude 0 and
longitude 5.5, the assembled record renders the latitude placeholder
while the longitude is present - the fields are partially present, with
neither both-resolved nor both-center. -/
theorem record_partial_coordinates_bug :
    (assembleRow zeroLatCand "q" (389 / 10) (-77)).latF = none ∧
    (assembleRow zeroLatCand "q" (389 / 10) (-77)).lonF = some (11 / 2) ∧
    (389 / 10 : ℚ) ≠ 0 := by
  unfold assembleRow
  rw [resolvePoint_zeroLat]
  norm_num

/-- The empty location reference resolves at no tier. -/
theorem resolvePoint_unresolved :
    resolvePoint unresolvedCand.link.toList 0 (-77) = (0, -77) := by
  have he : extract_coordinates_from_url unresolvedCand.link.toList =
      (none, none) := by decide
  unfold resolvePoint
  rw [he]

/-- Claim C4 fails on the code (same truthiness slip, lines 87 and 93):
for an unresolved candidate in a cell centered at latitude 0, the record
renders the latitude placeholder instead of the center latitude and an
empty distance instead of 0. -/
theorem fallback_zero_center_bug :
    (assembleRow unresolvedCand "q" 0 (-77)).latF = none ∧
    (assembleRow unresolvedCand "q" 0 (-77)).lonF = some (-77) ∧
    (assembleRow unresolvedCand "q" 0 (-77)).distF = none := by
  unfold assembleRow
  rw [resolvePoint_unresolved]
  norm_num

/-- For cells whose center has no zero coordinate, C4 does hold: the
unresolved candidate gets both center coordinates and a distance of 0. -/
theorem fallback_center_ok (p : Candidate) (q : String) (lat lon : ℚ)
    (hl : lat ≠ 0) (hn : lon ≠ 0)
    (hu : extract_coordinates_from_url p.link.toList = (none, none)) :
    (assembleRow p q lat lon).latF = some lat ∧
    (assembleRow p q lat lon).lonF = some lon ∧
    (assembleRow p q lat lon).distF = some 0 := by
  have hres : resolvePoint p.link.toList lat lon = (lat, lon) := by
    unfold resolvePoint
    rw [hu]
  unfold assembleRow
  rw [hres]
  refine ⟨by simp [hl], by simp [hn], ?_⟩
  simp only [hl, hn, ne_eq, not_false_iff, and_self, if_true]
  rw [haversine_self]

end SiteSelection
